import Mathlib

/-!
Verification development for the Lambda-MCP-Server repository.

The repository ships an HTTP proxy (`mcp-proxy.js`), client/integration test
drivers (`test-mcp-connection.js` and shell scripts), and infrastructure
templates (`template.yaml`, Dockerfiles).  The Lambda application itself
(protocol engine, session store, retrieval pipeline in `app/`) is referenced
by the Dockerfiles, the SAM template and the test drivers but its source is
not part of this tree; those components are modelled here from the design
specification, and every such definition is marked `Modelled from the spec:`.
Definitions taken from files present in the tree cite their file.
-/

namespace MCP

/-! Session store (two tiers with fallback) -/

/-- Modelled from the spec: a session record as persisted by the store
(`session_id` key, `created_at`, `expires_at` TTL, `protocol_version`,
`client_info`); the Python store implementation is absent from the tree,
only its DynamoDB table schema (`template.yaml`, `McpSessionsTable`) is. -/
structure Session where
  session_id : String
  created_at : Nat
  expires_at : Nat
  protocol_version : String
  client_info : String
deriving DecidableEq, Repr

/-- Modelled from the spec: the outcome of attempting one operation on one
storage tier.  `err` is an error raised by the tier (unreachable backend,
missing schema, permission), carrying its message. -/
inductive TierResult (α : Type) where
  | ok : α → TierResult α
  | err : String → TierResult α
deriving DecidableEq, Repr

/-- Modelled from the spec: what the store facade reports to the protocol
engine: a value, or a store-unavailable condition (both tiers failed). -/
inductive StoreOutcome (α : Type) where
  | ok : α → StoreOutcome α
  | unavailable : StoreOutcome α
deriving DecidableEq, Repr

/-- Modelled from the spec: the try-durable / catch / retry-on-fallback
facade.  A durable-tier error is caught (and logged as a warning) and the
same operation is retried against the in-process fallback map; only when the
fallback also fails does the facade surface a store-unavailable condition.
The result type `TierResult (StoreOutcome α)` makes an escaping exception
representable (`.err`), so that never raising past the boundary is a
provable property of the definition rather than of its type. -/
def tryWithFallback {α : Type} (durable fallback : TierResult α) :
    TierResult (StoreOutcome α) :=
  match durable with
  | .ok a => .ok (.ok a)
  | .err _ =>
    match fallback with
    | .ok a => .ok (.ok a)
    | .err _ => .ok .unavailable

/-- Modelled from the spec: the behavior of one storage tier for the four
session-store operations, giving each operation's outcome on that tier. -/
structure TierBehavior where
  createR : TierResult Session
  getR : TierResult (Option Session)
  touchR : TierResult Unit
  deleteR : TierResult Unit

/-- Modelled from the spec: `create()` through the two-tier facade. -/
def storeCreate (d f : TierBehavior) : TierResult (StoreOutcome Session) :=
  tryWithFallback d.createR f.createR

/-- Modelled from the spec: `get(id)` through the two-tier facade. -/
def storeGet (d f : TierBehavior) : TierResult (StoreOutcome (Option Session)) :=
  tryWithFallback d.getR f.getR

/-- Modelled from the spec: `touch(id)` through the two-tier facade. -/
def storeTouch (d f : TierBehavior) : TierResult (StoreOutcome Unit) :=
  tryWithFallback d.touchR f.touchR

/-- Modelled from the spec: `delete(id)` through the two-tier facade. -/
def storeDelete (d f : TierBehavior) : TierResult (StoreOutcome Unit) :=
  tryWithFallback d.deleteR f.deleteR

/-! Protocol engine data model -/

/-- Modelled from the spec: the tool-call arguments of the search tool
(`query`, `num_results`, `use_playwright`, `use_rag`, `chunk_size`), the
parameter names being those listed by the integration tests. -/
structure ToolArgs where
  query : String
  num_results : Int
  use_playwright : Bool
  use_rag : Bool
  chunk_size : Nat
deriving DecidableEq, Repr

/-- Modelled from the spec: the protocol methods — `initialize` (with its
`protocolVersion` and `clientInfo` params), `tools/list`, `tools/call`
(with tool name and arguments), and any other method name. -/
inductive ReqMethod where
  | init (protocolVersion : String) (clientInfo : String)
  | toolsList
  | toolsCall (toolName : String) (args : ToolArgs)
  | other (methodName : String)
deriving DecidableEq, Repr

/-- Whether a method is the `initialize` handshake. -/
def ReqMethod.isInit : ReqMethod → Bool
  | .init _ _ => true
  | _ => false

/-- Modelled from the spec: an inbound request — method, the optional
`mcp-session-id` request header, the remaining headers (per-call
credential overrides travel here), and the JSON-RPC id. -/
structure McpRequest where
  method : ReqMethod
  sessionId : Option String
  headers : List (String × String)
  id : Option Nat
deriving DecidableEq, Repr

/-- Modelled from the spec: a tool handler's result envelope
(`content` text items and the `isError` flag). -/
structure ToolResult where
  contentTexts : List String
  isError : Bool
deriving DecidableEq, Repr

/-- Modelled from the spec: the protocol-level error taxonomy relevant to
the engine: session-not-found (re-initialize), tool-not-found,
method-not-found, version-mismatch, invalid-params naming the field. -/
inductive McpError where
  | sessionNotFound
  | toolNotFound
  | methodNotFound
  | versionMismatch
  | invalidParams (field : String)
deriving DecidableEq, Repr

/-- Modelled from the spec: the body of a response envelope — exactly one of
a result (initialize result carrying `serverInfo`, a tools list, a tool
result) or a protocol error. -/
inductive ResponseBody where
  | initResult (serverInfo : String) (protocolVersion : String)
  | toolsListResult (toolNames : List String)
  | toolResult (r : ToolResult)
  | protoError (e : McpError)
deriving DecidableEq, Repr

/-- Modelled from the spec: a response — its body plus the `mcp-session-id`
response header (set at `initialize`, echoed afterward). -/
structure McpResponse where
  body : ResponseBody
  sessionHeader : Option String
deriving DecidableEq, Repr

/-- Modelled from the spec: engine-visible state — the session records
(the store's effective contents), the id-generator state, and the clock. -/
structure EngineState where
  sessions : List Session
  nextId : Nat
  now : Nat
deriving DecidableEq, Repr

/-- Session TTL granted at creation and on refresh (a fixed constant in the
model; the spec leaves the concrete duration to configuration). -/
def sessionTTL : Nat := 3600

/-- Server name reported in `serverInfo`. -/
def serverName : String := "Lambda MCP Server"

/-- The protocol version negotiated by the server; the integration tests
send this value. -/
def supportedProtocolVersion : String := "2024-11-05"

/-- Modelled from the spec: the session id generator yields a fresh opaque
unique token on each `create` (the deployed server uses a random UUID; the
model derives an injective token from a counter). -/
def freshSessionId (n : Nat) : String :=
  (List.replicate (n + 1) 's').asString

/-- The static tool registry: the four tools listed by
`INTEGRATION_TEST_RESULTS.md`. -/
def toolRegistry : List String :=
  ["getTime", "getWeather", "countS3Buckets", "googleSearchAndScrape"]

/-- Modelled from the spec: look a session up by id in the store contents. -/
def lookupSession (l : List Session) (sid : String) : Option Session :=
  l.find? (fun s => s.session_id == sid)

/-- Modelled from the spec: a session whose `expires_at` is in the past is
expired. -/
def sessionExpired (s : Session) (now : Nat) : Bool :=
  s.expires_at < now

/-- Modelled from the spec: turn a store outcome into the session the call
runs under: store-unavailable and a missing record both resolve to `none`,
and so does a record whose `expires_at` is in the past. -/
def resolveSession (o : StoreOutcome (Option Session)) (now : Nat) :
    Option Session :=
  match o with
  | .unavailable => none
  | .ok none => none
  | .ok (some s) => if sessionExpired s now then none else some s

/-- Modelled from the spec: `touch` — extend the TTL of the named session. -/
def touchSession (st : EngineState) (sid : String) : EngineState :=
  { st with
    sessions := st.sessions.map (fun t =>
      if t.session_id == sid then { t with expires_at := st.now + sessionTTL }
      else t) }

/-- The distinct "session not found" response: a protocol error instructing
the client to re-initialize, with no session header. -/
def sessionNotFoundResp : McpResponse :=
  ⟨.protoError .sessionNotFound, none⟩

/-- Modelled from the spec: the handler boundary.  A handler outcome is
`Except String ToolResult`, `.error` being a raised exception; the engine
catches it and folds it into a well-formed result with `isError = true`
and a human-readable message. -/
def runHandler (outcome : Except String ToolResult) : ToolResult :=
  match outcome with
  | .ok r => r
  | .error msg => ⟨["Error executing tool: " ++ msg], true⟩

/-- Modelled from the spec: run a continuation under the session resolved
from a store outcome; a session that does not resolve (store unavailable,
record missing, or expired) answers "session not found". -/
def guardSession (st : EngineState) (o : StoreOutcome (Option Session))
    (k : String → EngineState → McpResponse × EngineState) :
    McpResponse × EngineState :=
  match resolveSession o st.now with
  | none => (sessionNotFoundResp, st)
  | some s => k s.session_id (touchSession st s.session_id)

/-- Modelled from the spec: session guard for every non-`initialize`
method — resolve the presented id against the store and run the
continuation under the session, else answer "session not found". -/
def withSession (st : EngineState) (req : McpRequest)
    (k : String → EngineState → McpResponse × EngineState) :
    McpResponse × EngineState :=
  match req.sessionId with
  | none => (sessionNotFoundResp, st)
  | some sid => guardSession st (.ok (lookupSession st.sessions sid)) k

/-- Modelled from the spec: the protocol engine.  `initialize` negotiates
the version, creates a session and returns `serverInfo` with the new id in
the response header; every other method requires a valid unexpired session,
is dispatched through the registry, and echoes the current session id. -/
def handleRequest (env : String → ToolArgs → Except String ToolResult)
    (st : EngineState) (req : McpRequest) : McpResponse × EngineState :=
  match req.method with
  | .init pv ci =>
    if pv = supportedProtocolVersion then
      let sid := freshSessionId st.nextId
      let s : Session := ⟨sid, st.now, st.now + sessionTTL, pv, ci⟩
      (⟨.initResult serverName supportedProtocolVersion, some sid⟩,
        ⟨s :: st.sessions, st.nextId + 1, st.now⟩)
    else
      (⟨.protoError .versionMismatch, none⟩, st)
  | .toolsList =>
    withSession st req (fun sid st' =>
      (⟨.toolsListResult toolRegistry, some sid⟩, st'))
  | .toolsCall name args =>
    withSession st req (fun sid st' =>
      if name ∈ toolRegistry then
        (⟨.toolResult (runHandler (env name args)), some sid⟩, st')
      else
        (⟨.protoError .toolNotFound, some sid⟩, st'))
  | .other _ =>
    withSession st req (fun sid st' =>
      (⟨.protoError .methodNotFound, some sid⟩, st'))

/-- Invariant of the model's id generator: every stored session id was
produced by an earlier counter value. -/
def SessionIdsFresh (st : EngineState) : Prop :=
  ∀ s ∈ st.sessions, ∃ k, k < st.nextId ∧ s.session_id = freshSessionId k

/-! Retrieval pipeline -/

/-- Modelled from the spec: an external search hit, ordered by search rank. -/
structure SearchResult where
  url : String
  title : String
  snippet : String
deriving DecidableEq, Repr

/-- Modelled from the spec: a fetched page
(`scraping_method` is literally one of "static", "rendered", "failed"). -/
structure ScrapedDocument where
  url : String
  raw_text : String
  scraping_method : String
  length : Nat
deriving DecidableEq, Repr

/-- Modelled from the spec: clamp `num_results` into `[1, 10]`
before the search collaborator is queried. -/
def clampNumResults (n : Int) : Nat :=
  if n < 1 then 1 else if n > 10 then 10 else n.toNat

/-- The `scraping_method` tag of a successful fetch under the selected
strategy: "rendered" for the headless-browser collaborator
(`use_playwright`), "static" for the plain HTTP fetch. -/
def methodTag (use_playwright : Bool) : String :=
  if use_playwright then "rendered" else "static"

/-- Modelled from the spec: fetch one hit's page.  The fetch collaborator
returns `none` on any failure (including timeout), and that single item
degrades to `scraping_method = "failed"` with empty `raw_text`. -/
def scrapeOne (fetch : String → Option String) (up : Bool)
    (hit : SearchResult) : ScrapedDocument :=
  match fetch hit.url with
  | some text => ⟨hit.url, text, methodTag up, text.length⟩
  | none => ⟨hit.url, "", "failed", 0⟩

/-- Modelled from the spec: fetch every hit's page; each item lands at its
original rank position, so a single failure never aborts the batch. -/
def scrapeBatch (fetch : String → Option String) (up : Bool)
    (hits : List SearchResult) : List ScrapedDocument :=
  hits.map (scrapeOne fetch up)

/-- Modelled from the spec: split a text into contiguous chunks of `cs`
characters (the final chunk may be shorter), tagging each chunk with its
character offset.  Returns nothing for `cs = 0` (the pipeline enforces a
positive minimum before calling). -/
def chunkText (cs : Nat) (t : List Char) (off : Nat) :
    List (Nat × List Char) :=
  if h : cs = 0 ∨ t = [] then []
  else (off, t.take cs) :: chunkText cs (t.drop cs) (off + cs)
termination_by t.length
decreasing_by
  push_neg at h
  simp only [List.length_drop]
  have ht : t.length ≠ 0 := fun hl => h.2 (List.length_eq_zero.mp hl)
  omega

/-- Minimum enforced on `chunk_size` by the pipeline. -/
def minChunkSize : Nat := 50

/-- Modelled from the spec: the effective chunk size after the minimum is
enforced. -/
def effChunkSize (cs : Nat) : Nat := max cs minChunkSize

/-- Modelled from the spec: an unscored chunk — its source document's url
and original rank, its character offset, and its text. -/
structure PlainChunk where
  url : String
  doc_rank : Nat
  offset : Nat
  text : List Char
deriving DecidableEq, Repr

/-- Modelled from the spec: a chunk after relevance scoring. -/
structure RagChunk where
  url : String
  doc_rank : Nat
  offset : Nat
  text : List Char
  score : ℚ
deriving DecidableEq, Repr

/-- Modelled from the spec: all chunks of one scraped document, tagged with
the document's original rank. -/
def docChunks (cs : Nat) (rank : Nat) (d : ScrapedDocument) :
    List PlainChunk :=
  (chunkText cs d.raw_text.toList 0).map (fun p => ⟨d.url, rank, p.1, p.2⟩)

/-- Modelled from the spec: the successfully scraped documents with their
original rank positions. -/
def successfulDocs (docs : List ScrapedDocument) :
    List (Nat × ScrapedDocument) :=
  docs.enum.filter (fun p => p.2.scraping_method != "failed")

/-- Modelled from the spec: chunk every successfully scraped document. -/
def allChunks (cs : Nat) (docs : List ScrapedDocument) : List PlainChunk :=
  (successfulDocs docs).flatMap (fun p => docChunks cs p.1 p.2)

/-- Modelled from the spec: attach a relevance score to every chunk. -/
def scoreChunks (f : PlainChunk → ℚ) (l : List PlainChunk) : List RagChunk :=
  l.map (fun c => ⟨c.url, c.doc_rank, c.offset, c.text, f c⟩)

/-- Modelled from the spec: the two scoring paths — embedding similarity
when the embedding backend is available, else the deterministic lexical
fallback — selected by the single availability flag, never mixed. -/
def selectScorer (embedAvailable : Bool)
    (embedScore lexScore : String → List Char → ℚ) (query : String) :
    PlainChunk → ℚ :=
  fun c => if embedAvailable then embedScore query c.text
           else lexScore query c.text

/-- Modelled from the spec: the ranking key — descending by score, ties
broken by (original document rank, chunk offset) ascending; encoded as the
lexicographic order on (negated score, rank, offset). -/
def chunkKey (c : RagChunk) : Lex (ℚ × Lex (Nat × Nat)) :=
  toLex (-c.score, toLex (c.doc_rank, c.offset))

/-- The comparison used to rank chunks. -/
def chunkLE (a b : RagChunk) : Bool :=
  decide (chunkKey a ≤ chunkKey b)

/-- Modelled from the spec: rank all chunks and return the top `K`. -/
def rankChunks (K : Nat) (l : List RagChunk) : List RagChunk :=
  (l.mergeSort chunkLE).take K

/-- Modelled from the spec: the outcome of the external search collaborator
— hits, an authentication/credential failure, or another failure. -/
inductive SearchOutcome where
  | ok (hits : List SearchResult)
  | authFailure (msg : String)
  | otherFailure (msg : String)
deriving DecidableEq, Repr

/-- Render a scraped document as a result line (stand-in for the JSON
rendering of `url`, `title`, `scraped_content`, `scraping_method`). -/
def renderDoc (d : ScrapedDocument) : String :=
  d.url ++ " [" ++ d.scraping_method ++ "] " ++ d.raw_text

/-- Render a ranked chunk with its source url and score. -/
def renderChunk (c : RagChunk) : String :=
  c.url ++ " @" ++ Nat.repr c.offset ++ ": " ++ c.text.asString

/-- Modelled from the spec: the search-and-scrape tool handler.  Clamps
`num_results`, queries the search collaborator, fetches each hit
concurrently (modelled by the pure per-item map), and either returns the
ordered documents or, under `use_rag`, the top-K ranked chunks.
Authentication/credential failures from the search collaborator are caught
here and returned as tool-level failures (`isError = true`, classified
message), never thrown. -/
def googleSearchAndScrape (search : String → Nat → SearchOutcome)
    (fetch : String → Option String) (embedAvailable : Bool)
    (embedScore lexScore : String → List Char → ℚ) (args : ToolArgs) :
    Except String ToolResult :=
  let k := clampNumResults args.num_results
  match search args.query k with
  | .authFailure msg =>
    .ok ⟨["Authentication error from search API: " ++ msg], true⟩
  | .otherFailure msg =>
    .ok ⟨["Search error: " ++ msg], true⟩
  | .ok hits =>
    let docs := scrapeBatch fetch args.use_playwright hits
    if args.use_rag then
      let scorer := selectScorer embedAvailable embedScore lexScore args.query
      let ranked :=
        rankChunks k (scoreChunks scorer (allChunks (effChunkSize args.chunk_size) docs))
      .ok ⟨ranked.map renderChunk, false⟩
    else
      .ok ⟨docs.map renderDoc, false⟩

/-! Client (from `test-mcp-connection.js`) -/

/-- The TypeScript client's state (`MCPClient` in `test-mcp-connection.js`):
the bearer token and server url fixed at construction. -/
structure MCPClientState where
  apiToken : String
  serverUrl : String
deriving DecidableEq, Repr

/-- Headers sent by `MCPClient.callTool`: with `customHeaders` the client
builds merged headers (spread after the default, so a custom entry wins —
first match wins in this list encoding) on a temporary transport used for
exactly that call; without, the standing transport's `Authorization`
header alone. -/
def callToolHeaders (c : MCPClientState)
    (customHeaders : Option (List (String × String))) :
    List (String × String) :=
  match customHeaders with
  | some hs => hs ++ [("Authorization", "Bearer " ++ c.apiToken)]
  | none => [("Authorization", "Bearer " ++ c.apiToken)]

/-- `MCPClient.callTool`: performs the call with the headers above; the
temporary client used for an overridden call is closed afterwards and the
standing client state is returned unchanged. -/
def callTool (c : MCPClientState)
    (server : List (String × String) → ToolArgs → ToolResult)
    (args : ToolArgs) (customHeaders : Option (List (String × String))) :
    ToolResult × MCPClientState :=
  (server (callToolHeaders c customHeaders) args, c)

/-- Modelled from the spec: server-side resolution of the per-call
credential — the override header when present on this call, else the
process-level default (the `GITHUB_TOKEN` environment of the function). -/
def effectiveCredential (headers : List (String × String))
    (processDefault : Option String) : Option String :=
  match headers.lookup "GitHub-Token" with
  | some t => some t
  | none => processDefault

/-! Proxy (from `mcp-proxy.js`) -/

/-- The authorization header the proxy puts on the Lambda event
(`mcp-proxy.js` line 26): the incoming header when JS finds it truthy
(present and non-empty), else the default built from `MCP_AUTH_TOKEN`. -/
def forwardedAuthHeader (incomingAuth : Option String)
    (mcpAuthToken : String) : String :=
  match incomingAuth with
  | some a => if a = "" then "Bearer " ++ mcpAuthToken else a
  | none => "Bearer " ++ mcpAuthToken

/-- The headers of the Lambda event built by the proxy's POST handler
(`mcp-proxy.js` lines 22–29); the `mcp-session-id` entry is dropped by the
JSON serialization when the incoming header is absent. -/
def lambdaEventHeaders (incomingAuth incomingSession : Option String)
    (mcpAuthToken : String) : List (String × String) :=
  [("content-type", "application/json"),
   ("authorization", forwardedAuthHeader incomingAuth mcpAuthToken)] ++
  (match incomingSession with
   | some s => [("mcp-session-id", s)]
   | none => [])

/-! Helper lemmas on `chunkText` -/

theorem chunkText_nil (cs off : Nat) : chunkText cs [] off = [] := by
  rw [chunkText]
  simp

theorem chunkText_cons (cs : Nat) (t : List Char) (off : Nat)
    (hcs : cs ≠ 0) (ht : t ≠ []) :
    chunkText cs t off = (off, t.take cs) :: chunkText cs (t.drop cs) (off + cs) := by
  rw [chunkText]
  simp [hcs, ht]

theorem chunkText_eq_nil_iff (cs : Nat) (t : List Char) (off : Nat)
    (hcs : cs ≠ 0) : chunkText cs t off = [] ↔ t = [] := by
  constructor
  · intro h
    by_contra ht
    rw [chunkText_cons cs t off hcs ht] at h
    exact List.cons_ne_nil _ _ h
  · intro h
    subst h
    exact chunkText_nil cs off

theorem chunkText_join (cs : Nat) (hcs : cs ≠ 0) (t : List Char) (off : Nat) :
    ((chunkText cs t off).map Prod.snd).flatten = t := by
  by_cases ht : t = []
  · subst ht
    simp [chunkText_nil]
  · rw [chunkText_cons cs t off hcs ht]
    simp only [List.map_cons, List.flatten_cons]
    rw [chunkText_join cs hcs (t.drop cs) (off + cs)]
    exact List.take_append_drop cs t
termination_by t.length
decreasing_by
  simp only [List.length_drop]
  have hl : t.length ≠ 0 := fun h0 => ht (List.length_eq_zero.mp h0)
  omega

theorem chunkText_mem_length (cs : Nat) (hcs : cs ≠ 0) (t : List Char)
    (off : Nat) :
    ∀ p ∈ chunkText cs t off, 0 < p.2.length ∧ p.2.length ≤ cs := by
  by_cases ht : t = []
  · subst ht
    simp [chunkText_nil]
  · rw [chunkText_cons cs t off hcs ht]
    intro p hp
    rcases List.mem_cons.mp hp with h | h
    · subst h
      simp only [List.length_take]
      have hl : t.length ≠ 0 := fun h0 => ht (List.length_eq_zero.mp h0)
      constructor
      · omega
      · exact min_le_left _ _
    · exact chunkText_mem_length cs hcs (t.drop cs) (off + cs) p h
termination_by t.length
decreasing_by
  simp only [List.length_drop]
  have hl : t.length ≠ 0 := fun h0 => ht (List.length_eq_zero.mp h0)
  omega

theorem chunkText_dropLast_length (cs : Nat) (hcs : cs ≠ 0) (t : List Char)
    (off : Nat) :
    ∀ p ∈ (chunkText cs t off).dropLast, p.2.length = cs := by
  by_cases ht : t = []
  · subst ht
    simp [chunkText_nil]
  · rw [chunkText_cons cs t off hcs ht]
    by_cases hd : t.drop cs = []
    · rw [hd, chunkText_nil]
      simp
    · rw [List.dropLast_cons_of_ne_nil
        ((chunkText_eq_nil_iff cs (t.drop cs) (off + cs) hcs).ne.mpr hd)]
      intro p hp
      rcases List.mem_cons.mp hp with h | h
      · subst h
        simp only [List.length_take]
        have hlen : cs < t.length := by
          have hnot : ¬ t.length ≤ cs := fun hle =>
            hd (List.drop_eq_nil_iff.mpr hle)
          omega
        omega
      · exact chunkText_dropLast_length cs hcs (t.drop cs) (off + cs) p h
termination_by t.length
decreasing_by
  simp only [List.length_drop]
  have hl : t.length ≠ 0 := fun h0 => ht (List.length_eq_zero.mp h0)
  omega

theorem chunkText_head?_fst (cs : Nat) (t : List Char) (off : Nat) :
    ∀ p ∈ (chunkText cs t off).head?, p.1 = off := by
  by_cases h : cs = 0 ∨ t = []
  · rw [chunkText]
    simp [h]
  · push_neg at h
    rw [chunkText_cons cs t off h.1 h.2]
    simp

theorem chunkText_chain (cs : Nat) (t : List Char) (off : Nat) :
    List.Chain' (fun a b : Nat × List Char => b.1 = a.1 + cs)
      (chunkText cs t off) := by
  by_cases h : cs = 0 ∨ t = []
  · rw [chunkText]
    simp [h]
  · push_neg at h
    rw [chunkText_cons cs t off h.1 h.2]
    rw [List.chain'_cons']
    refine ⟨?_, chunkText_chain cs (t.drop cs) (off + cs)⟩
    intro b hb
    have := chunkText_head?_fst cs (t.drop cs) (off + cs) b hb
    omega
termination_by t.length
decreasing_by
  push_neg at h
  simp only [List.length_drop]
  have hl : t.length ≠ 0 := fun h0 => h.2 (List.length_eq_zero.mp h0)
  omega

theorem chunkText_fst_congr (cs : Nat) (t₁ t₂ : List Char)
    (hlen : t₁.length = t₂.length) (off : Nat) :
    (chunkText cs t₁ off).map Prod.fst = (chunkText cs t₂ off).map Prod.fst := by
  by_cases h : cs = 0 ∨ t₁ = []
  · have h₂ : cs = 0 ∨ t₂ = [] := by
      rcases h with h | h
      · exact Or.inl h
      · refine Or.inr (List.length_eq_zero.mp ?_)
        rw [← hlen, h]
        rfl
    have e₁ : chunkText cs t₁ off = [] := by
      rw [chunkText]
      simp [h]
    have e₂ : chunkText cs t₂ off = [] := by
      rw [chunkText]
      simp [h₂]
    rw [e₁, e₂]
  · push_neg at h
    have h₂ : t₂ ≠ [] := by
      intro hc
      apply h.2
      refine List.length_eq_zero.mp ?_
      rw [hlen, hc]
      rfl
    rw [chunkText_cons cs t₁ off h.1 h.2, chunkText_cons cs t₂ off h.1 h₂]
    simp only [List.map_cons]
    exact congrArg₂ List.cons rfl
      (chunkText_fst_congr cs (t₁.drop cs) (t₂.drop cs) (by simp [hlen])
        (off + cs))
termination_by t₁.length
decreasing_by
  push_neg at h
  simp only [List.length_drop]
  have hl : t₁.length ≠ 0 := fun h0 => h.2 (List.length_eq_zero.mp h0)
  omega

/-! Helper lemmas on the ranking order -/

theorem chunkLE_trans (a b c : RagChunk) (hab : chunkLE a b = true)
    (hbc : chunkLE b c = true) : chunkLE a c = true := by
  simp only [chunkLE, decide_eq_true_eq] at hab hbc ⊢
  exact le_trans hab hbc

theorem chunkLE_total (a b : RagChunk) :
    (chunkLE a b || chunkLE b a) = true := by
  simp only [chunkLE, Bool.or_eq_true, decide_eq_true_eq]
  exact le_total _ _

/-- Explication of the ranking order: `chunkLE a b` holds exactly when `a`
scores strictly higher than `b`, or they tie and `a` precedes `b` in the
(document rank, chunk offset) lexicographic order. -/
theorem chunkLE_iff (a b : RagChunk) :
    chunkLE a b = true ↔
      (b.score < a.score ∨ (a.score = b.score ∧
        (a.doc_rank < b.doc_rank ∨
          (a.doc_rank = b.doc_rank ∧ a.offset ≤ b.offset)))) := by
  simp only [chunkLE, decide_eq_true_eq, chunkKey]
  rw [Prod.Lex.le_iff]
  constructor
  · rintro (h | ⟨h1, h2⟩)
    · exact Or.inl (by simpa using h)
    · refine Or.inr ⟨by simpa using neg_injective h1, ?_⟩
      rw [Prod.Lex.le_iff] at h2
      exact h2
  · rintro (h | ⟨h1, h2⟩)
    · exact Or.inl (by simpa using h)
    · refine Or.inr ⟨by simp [h1], ?_⟩
      rw [Prod.Lex.le_iff]
      exact h2

/-! Generic helper lemmas for the engine -/

theorem handleRequest_non_init
    (env : String → ToolArgs → Except String ToolResult)
    (st : EngineState) (req : McpRequest) (hm : req.method.isInit = false) :
    ∃ k, handleRequest env st req = withSession st req k := by
  cases hreq : req.method with
  | init pv ci => rw [hreq] at hm; simp [ReqMethod.isInit] at hm
  | toolsList =>
    exact ⟨fun sid st' => (⟨.toolsListResult toolRegistry, some sid⟩, st'),
      by simp [handleRequest, hreq]⟩
  | toolsCall name args =>
    exact ⟨fun sid st' =>
      if name ∈ toolRegistry then
        (⟨.toolResult (runHandler (env name args)), some sid⟩, st')
      else
        (⟨.protoError .toolNotFound, some sid⟩, st'),
      by simp [handleRequest, hreq]⟩
  | other name =>
    exact ⟨fun sid st' => (⟨.protoError .methodNotFound, some sid⟩, st'),
      by simp [handleRequest, hreq]⟩

theorem withSession_no_header (st : EngineState) (req : McpRequest)
    (k : String → EngineState → McpResponse × EngineState)
    (h : req.sessionId = none) :
    withSession st req k = (sessionNotFoundResp, st) := by
  simp [withSession, h]

theorem withSession_resolve_none (st : EngineState) (req : McpRequest)
    (k : String → EngineState → McpResponse × EngineState) (sid : String)
    (h : req.sessionId = some sid)
    (hr : resolveSession (.ok (lookupSession st.sessions sid)) st.now = none) :
    withSession st req k = (sessionNotFoundResp, st) := by
  simp [withSession, h, guardSession, hr]

theorem lookupSession_filter_ne (l : List Session) (sid : String) :
    lookupSession (l.filter (fun t => t.session_id != sid)) sid = none := by
  rw [lookupSession, List.find?_eq_none]
  intro x hx
  have := (List.mem_filter.mp hx).2
  simp only [bne_iff_ne, ne_eq] at this
  simp [this]

/-! Claim C7 -/

/-- C7: no Session Store operation (`create`, `get`, `touch`, `delete`)
ever raises past the store boundary — a durable-tier error is caught and
the operation retried on the fallback tier, only a failure of both tiers
surfaces, as a store-unavailable outcome, and the engine treats that
outcome exactly like a missing session ("session not found"). -/
theorem C7_store_never_raises (d f : TierBehavior) :
    (∀ e, storeCreate d f ≠ .err e) ∧
    (∀ e, storeGet d f ≠ .err e) ∧
    (∀ e, storeTouch d f ≠ .err e) ∧
    (∀ e, storeDelete d f ≠ .err e) ∧
    (∀ ed, d.getR = .err ed →
      storeGet d f = tryWithFallback (.err ed) f.getR) ∧
    (∀ ed ef, d.getR = .err ed → f.getR = .err ef →
      storeGet d f = .ok .unavailable) ∧
    (∀ now, resolveSession .unavailable now = resolveSession (.ok none) now) ∧
    (∀ (st : EngineState) k, guardSession st .unavailable k =
      (sessionNotFoundResp, st)) := by
  have hne : ∀ (α : Type) (a b : TierResult α) (e : String),
      tryWithFallback a b ≠ .err e := by
    intro α a b e
    cases a <;> cases b <;> simp [tryWithFallback]
  refine ⟨fun e => hne _ _ _ e, fun e => hne _ _ _ e, fun e => hne _ _ _ e,
    fun e => hne _ _ _ e, ?_, ?_, ?_, ?_⟩
  · intro ed hd
    rw [storeGet, hd]
  · intro ed ef hd hf
    rw [storeGet, hd, hf]
    rfl
  · intro now
    rfl
  · intro st k
    rfl

/-- Witness for C7 at a concrete pair of failing tier behaviors. -/
theorem C7_store_never_raises_witness :
    ((⟨.err "down", .err "down", .err "down", .err "down"⟩ : TierBehavior).getR
        = .err "down") ∧
    ((⟨.err "schema", .err "schema", .err "schema", .err "schema"⟩ :
        TierBehavior).getR = .err "schema") ∧
    storeGet ⟨.err "down", .err "down", .err "down", .err "down"⟩
        ⟨.err "schema", .err "schema", .err "schema", .err "schema"⟩ =
      .ok .unavailable :=
  ⟨rfl, rfl,
    (C7_store_never_raises
      ⟨.err "down", .err "down", .err "down", .err "down"⟩
      ⟨.err "schema", .err "schema", .err "schema", .err "schema"⟩).2.2.2.2.2.1
      "down" "schema" rfl rfl⟩

/-! Claim C8 -/

/-- C8: for every invocation of the search tool the effective `num_results`
lies in `[1, 10]`: values `≤ 0` clamp to `1`, values above `10` (for
example `15`) clamp to `10`, and the pipeline queries the search
collaborator only at the clamped count. -/
theorem C8_num_results_clamped (n : Int) :
    1 ≤ clampNumResults n ∧ clampNumResults n ≤ 10 ∧
    (n ≤ 0 → clampNumResults n = 1) ∧
    (10 < n → clampNumResults n = 10) ∧
    clampNumResults 15 = 10 ∧
    (∀ (s₁ s₂ : String → Nat → SearchOutcome)
      (fetch : String → Option String) (ea : Bool)
      (es ls : String → List Char → ℚ) (args : ToolArgs),
      (∀ q, s₁ q (clampNumResults args.num_results) =
            s₂ q (clampNumResults args.num_results)) →
      googleSearchAndScrape s₁ fetch ea es ls args =
        googleSearchAndScrape s₂ fetch ea es ls args) := by
  refine ⟨?_, ?_, ?_, ?_, by decide, ?_⟩
  · unfold clampNumResults
    split <;> try split
    all_goals omega
  · unfold clampNumResults
    split <;> try split
    all_goals omega
  · intro hn
    unfold clampNumResults
    split <;> try split
    all_goals omega
  · intro hn
    unfold clampNumResults
    split <;> try split
    all_goals omega
  · intro s₁ s₂ fetch ea es ls args hagree
    simp only [googleSearchAndScrape, hagree args.query]

/-- Witness for C8 at the inputs named by the spec (`0` and `15`). -/
theorem C8_num_results_clamped_witness :
    ((0 : Int) ≤ 0 ∧ clampNumResults 0 = 1) ∧
    ((10 : Int) < 15 ∧ clampNumResults 15 = 10) :=
  ⟨⟨le_refl 0, (C8_num_results_clamped 0).2.2.1 (le_refl 0)⟩,
   ⟨by decide, (C8_num_results_clamped 15).2.2.2.1 (by decide)⟩⟩

/-! Claim C4 -/

/-- C4: a failed fetch (including a timeout) never aborts the batch: the
batch result has exactly one entry per requested hit, in the original
search-rank order; a failed entry carries `scraping_method = "failed"` and
empty `raw_text` at its original rank position, and a successful entry
keeps its rank, its fetched content and the selected strategy's tag. -/
theorem C4_batch_partial_failure (fetch : String → Option String) (up : Bool)
    (hits : List SearchResult) :
    (scrapeBatch fetch up hits).length = hits.length ∧
    (∀ (i : Nat) (hit : SearchResult), hits[i]? = some hit →
      fetch hit.url = none →
      (scrapeBatch fetch up hits)[i]? = some ⟨hit.url, "", "failed", 0⟩) ∧
    (∀ (i : Nat) (hit : SearchResult) (t : String), hits[i]? = some hit →
      fetch hit.url = some t →
      (scrapeBatch fetch up hits)[i]? =
        some ⟨hit.url, t, methodTag up, t.length⟩) := by
  refine ⟨List.length_map hits _, ?_, ?_⟩
  · intro i hit hh hf
    rw [scrapeBatch, List.getElem?_map, hh]
    simp [scrapeOne, hf]
  · intro i hit t hh hf
    rw [scrapeBatch, List.getElem?_map, hh]
    simp [scrapeOne, hf]

/-- Concrete three-hit batch used by the C4 witness. -/
def simHits : List SearchResult :=
  [⟨"u1", "t1", "s1"⟩, ⟨"u2", "t2", "s2"⟩, ⟨"u3", "t3", "s3"⟩]

/-- Concrete fetch collaborator for the C4 witness: the second page fails,
the others succeed. -/
def simFetch : String → Option String :=
  fun u => if u = "u2" then none else some ("content " ++ u)

/-- Witness for C4: of 3 requested fetches exactly 1 fails; the response
still has 3 entries, the failed one at its rank with
`scraping_method = "failed"`, the other two with their content. -/
theorem C4_batch_partial_failure_witness :
    (scrapeBatch simFetch false simHits).length = 3 ∧
    (simHits[1]? = some ⟨"u2", "t2", "s2"⟩ ∧ simFetch "u2" = none ∧
      (scrapeBatch simFetch false simHits)[1]? =
        some ⟨"u2", "", "failed", 0⟩) ∧
    (simHits[0]? = some ⟨"u1", "t1", "s1"⟩ ∧
      simFetch "u1" = some "content u1" ∧
      (scrapeBatch simFetch false simHits)[0]? =
        some ⟨"u1", "content u1", methodTag false, ("content u1").length⟩) ∧
    (simHits[2]? = some ⟨"u3", "t3", "s3"⟩ ∧
      simFetch "u3" = some "content u3" ∧
      (scrapeBatch simFetch false simHits)[2]? =
        some ⟨"u3", "content u3", methodTag false, ("content u3").length⟩) :=
  ⟨(C4_batch_partial_failure simFetch false simHits).1,
   ⟨rfl, by decide,
     (C4_batch_partial_failure simFetch false simHits).2.1 1 ⟨"u2", "t2", "s2"⟩
       rfl (by decide)⟩,
   ⟨rfl, by decide,
     (C4_batch_partial_failure simFetch false simHits).2.2 0 ⟨"u1", "t1", "s1"⟩
       "content u1" rfl (by decide)⟩,
   ⟨rfl, by decide,
     (C4_batch_partial_failure simFetch false simHits).2.2 2 ⟨"u3", "t3", "s3"⟩
       "content u3" rfl (by decide)⟩⟩

/-! Claim C9 -/

/-- C9: a per-call credential header override applies to exactly the call
it is sent on — the overridden call goes out on merged headers from a
temporary transport, the standing client state is unchanged, a later call
on the same client without the override sends only the default
`Authorization` header, and on the server side the override header is used
when present on the call and the process-level default otherwise. -/
theorem C9_per_call_credential_override (c : MCPClientState)
    (server : List (String × String) → ToolArgs → ToolResult)
    (args args₂ : ToolArgs) (hs : List (String × String)) (tok : String)
    (processDefault : Option String) :
    (callTool c server args (some hs)).2 = c ∧
    (callTool c server args (some hs)).1 =
      server (hs ++ [("Authorization", "Bearer " ++ c.apiToken)]) args ∧
    (callTool (callTool c server args (some hs)).2 server args₂ none).1 =
      server [("Authorization", "Bearer " ++ c.apiToken)] args₂ ∧
    (hs.lookup "GitHub-Token" = some tok →
      effectiveCredential (callToolHeaders c (some hs)) processDefault =
        some tok) ∧
    (∀ headers : List (String × String),
      headers.lookup "GitHub-Token" = none →
      effectiveCredential headers processDefault = processDefault) := by
  refine ⟨rfl, rfl, rfl, ?_, ?_⟩
  · intro hlk
    rw [effectiveCredential, callToolHeaders, List.lookup_append, hlk]
    rfl
  · intro headers hlk
    rw [effectiveCredential, hlk]

/-- Witness for C9 at a concrete client, override header and fallback. -/
theorem C9_per_call_credential_override_witness :
    ([("GitHub-Token", "gh-override")].lookup "GitHub-Token"
        = some "gh-override" ∧
      effectiveCredential
        (callToolHeaders ⟨"api-tok", "http://mcp-proxy:3000"⟩
          (some [("GitHub-Token", "gh-override")]))
        (some "gh-env") = some "gh-override") ∧
    (([] : List (String × String)).lookup "GitHub-Token" = none ∧
      effectiveCredential [] (some "gh-env") = some "gh-env") :=
  ⟨⟨by decide,
    (C9_per_call_credential_override ⟨"api-tok", "http://mcp-proxy:3000"⟩
      (fun _ _ => ⟨[], false⟩) ⟨"q", 1, false, false, 500⟩
      ⟨"q", 1, false, false, 500⟩ [("GitHub-Token", "gh-override")]
      "gh-override" (some "gh-env")).2.2.2.1 (by decide)⟩,
   ⟨rfl,
    (C9_per_call_credential_override ⟨"api-tok", "http://mcp-proxy:3000"⟩
      (fun _ _ => ⟨[], false⟩) ⟨"q", 1, false, false, 500⟩
      ⟨"q", 1, false, false, 500⟩ [("GitHub-Token", "gh-override")]
      "gh-override" (some "gh-env")).2.2.2.2 [] rfl⟩⟩

/-! Claim C10 -/

/-- C10 as stated is false on the code: the proxy substitutes the default
token whenever JavaScript finds the incoming header falsy, so an
`Authorization` header that is present but empty is replaced rather than
forwarded verbatim. -/
theorem C10_counterexample :
    forwardedAuthHeader (some "") "test-token" = "Bearer test-token" ∧
    "Bearer test-token" ≠ "" := by
  constructor
  · rfl
  · decide

/-- C10 (amended): the Lambda event always carries a non-empty
`authorization` header; a non-empty incoming `Authorization` header is
forwarded verbatim, and an absent or empty one is replaced by
`"Bearer " ++ MCP_AUTH_TOKEN`. -/
theorem C10_auth_header_forwarding (a ms : Option String) (tok : String) :
    (lambdaEventHeaders a ms tok).lookup "authorization" =
      some (forwardedAuthHeader a tok) ∧
    forwardedAuthHeader a tok ≠ "" ∧
    (∀ s, a = some s → s ≠ "" → forwardedAuthHeader a tok = s) ∧
    ((a = none ∨ a = some "") →
      forwardedAuthHeader a tok = "Bearer " ++ tok) := by
  have hbearer : ∀ t : String, "Bearer " ++ t ≠ "" := by
    intro t hc
    have hlen := congrArg String.length hc
    rw [String.length_append] at hlen
    have h7 : ("Bearer " : String).length = 7 := rfl
    have h0 : ("" : String).length = 0 := rfl
    omega
  refine ⟨?_, ?_, ?_, ?_⟩
  · simp [lambdaEventHeaders, List.lookup_cons]
  · cases a with
    | none => exact hbearer tok
    | some s =>
      by_cases hse : s = ""
      · subst hse
        simpa [forwardedAuthHeader] using hbearer tok
      · simp [forwardedAuthHeader, hse]
  · intro s hsa hse
    subst hsa
    simp [forwardedAuthHeader, hse]
  · rintro (ha | ha) <;> subst ha <;> rfl

/-- Witness for C10 (amended) at a present non-empty header and at an
absent header. -/
theorem C10_auth_header_forwarding_witness :
    (some "Bearer abc" = some "Bearer abc" ∧ "Bearer abc" ≠ "" ∧
      forwardedAuthHeader (some "Bearer abc") "test-token" = "Bearer abc") ∧
    (((none : Option String) = none ∨ (none : Option String) = some "") ∧
      forwardedAuthHeader none "test-token" = "Bearer " ++ "test-token") :=
  ⟨⟨rfl, by decide,
    (C10_auth_header_forwarding (some "Bearer abc") none "test-token").2.2.1
      "Bearer abc" rfl (by decide)⟩,
   ⟨Or.inl rfl,
    (C10_auth_header_forwarding none none "test-token").2.2.2 (Or.inl rfl)⟩⟩

/-! Claim C1 -/

theorem freshSessionId_injective : Function.Injective freshSessionId := by
  intro m n h
  have hlen := congrArg String.length h
  rw [freshSessionId, freshSessionId, List.length_asString,
    List.length_asString, List.length_replicate, List.length_replicate] at hlen
  omega

/-- C1: a successful `initialize` answers with `serverInfo` in the body and
a freshly created session's id in the `mcp-session-id` response header; the
new session is stored under that id, the id names no pre-existing session,
the body is independent of the id-generator state (the header is the only
channel carrying the id), and every later successful call echoes the
presented session id in the same header. -/
theorem C1_init_session_header
    (env : String → ToolArgs → Except String ToolResult)
    (st : EngineState) (pv ci : String) (sidOpt : Option String)
    (hdrs : List (String × String)) (rid : Option Nat)
    (hpv : pv = supportedProtocolVersion) (hfresh : SessionIdsFresh st) :
    (handleRequest env st ⟨.init pv ci, sidOpt, hdrs, rid⟩).1.body =
      .initResult serverName supportedProtocolVersion ∧
    (handleRequest env st ⟨.init pv ci, sidOpt, hdrs, rid⟩).1.sessionHeader =
      some (freshSessionId st.nextId) ∧
    (∀ s ∈ st.sessions, s.session_id ≠ freshSessionId st.nextId) ∧
    lookupSession
        (handleRequest env st ⟨.init pv ci, sidOpt, hdrs, rid⟩).2.sessions
        (freshSessionId st.nextId) =
      some ⟨freshSessionId st.nextId, st.now, st.now + sessionTTL, pv, ci⟩ ∧
    (∀ st₂ : EngineState,
      (handleRequest env st₂ ⟨.init pv ci, sidOpt, hdrs, rid⟩).1.body =
      (handleRequest env st ⟨.init pv ci, sidOpt, hdrs, rid⟩).1.body) ∧
    (∀ (env₂ : String → ToolArgs → Except String ToolResult)
      (st₂ : EngineState) (req₂ : McpRequest) (sid : String) (s : Session),
      req₂.method.isInit = false → req₂.sessionId = some sid →
      lookupSession st₂.sessions sid = some s →
      sessionExpired s st₂.now = false →
      (handleRequest env₂ st₂ req₂).1.sessionHeader = some sid) := by
  subst hpv
  refine ⟨by simp [handleRequest], by simp [handleRequest], ?_, ?_, ?_, ?_⟩
  · intro s hs heq
    obtain ⟨k, hk, hid⟩ := hfresh s hs
    exact absurd (freshSessionId_injective (hid ▸ heq)) (Nat.ne_of_lt hk)
  · simp [handleRequest, lookupSession, List.find?_cons]
  · intro st₂
    simp [handleRequest]
  · intro env₂ st₂ req₂ sid s hm hsid hlook hexp
    have hsids : s.session_id = sid := by
      have := List.find?_some hlook
      exact eq_of_beq this
    have hres : resolveSession (.ok (lookupSession st₂.sessions sid))
        st₂.now = some s := by
      rw [hlook]
      simp [resolveSession, hexp]
    cases hreqm : req₂.method with
    | init pv₂ ci₂ => rw [hreqm] at hm; simp [ReqMethod.isInit] at hm
    | toolsList =>
      simp [handleRequest, hreqm, withSession, hsid, guardSession, hres, hsids]
    | toolsCall name₂ args₂ =>
      by_cases hr : name₂ ∈ toolRegistry <;>
        simp [handleRequest, hreqm, withSession, hsid, guardSession, hres,
          hsids, hr]
    | other name₂ =>
      simp [handleRequest, hreqm, withSession, hsid, guardSession, hres, hsids]

/-- Trivial handler environment used by concrete witnesses. -/
def env0 : String → ToolArgs → Except String ToolResult :=
  fun _ _ => .ok ⟨[], false⟩

/-- Witness for C1 at an empty engine state and the handshake the test
client sends. -/
theorem C1_init_session_header_witness :
    ("2024-11-05" = supportedProtocolVersion ∧
      SessionIdsFresh ⟨[], 0, 100⟩) ∧
    ((handleRequest env0 ⟨[], 0, 100⟩
        ⟨.init "2024-11-05" "test-client", none, [], some 1⟩).1.body =
      .initResult serverName supportedProtocolVersion ∧
    (handleRequest env0 ⟨[], 0, 100⟩
        ⟨.init "2024-11-05" "test-client", none, [], some 1⟩).1.sessionHeader =
      some (freshSessionId 0) ∧
    (∀ s ∈ (⟨[], 0, 100⟩ : EngineState).sessions,
      s.session_id ≠ freshSessionId 0) ∧
    lookupSession
        (handleRequest env0 ⟨[], 0, 100⟩
          ⟨.init "2024-11-05" "test-client", none, [], some 1⟩).2.sessions
        (freshSessionId 0) =
      some ⟨freshSessionId 0, 100, 100 + sessionTTL, "2024-11-05",
        "test-client"⟩ ∧
    (∀ st₂ : EngineState,
      (handleRequest env0 st₂
        ⟨.init "2024-11-05" "test-client", none, [], some 1⟩).1.body =
      (handleRequest env0 ⟨[], 0, 100⟩
        ⟨.init "2024-11-05" "test-client", none, [], some 1⟩).1.body) ∧
    (∀ (env₂ : String → ToolArgs → Except String ToolResult)
      (st₂ : EngineState) (req₂ : McpRequest) (sid : String) (s : Session),
      req₂.method.isInit = false → req₂.sessionId = some sid →
      lookupSession st₂.sessions sid = some s →
      sessionExpired s st₂.now = false →
      (handleRequest env₂ st₂ req₂).1.sessionHeader = some sid)) :=
  ⟨⟨rfl, fun s hs => absurd hs (List.not_mem_nil s)⟩,
   C1_init_session_header env0 ⟨[], 0, 100⟩ "2024-11-05" "test-client" none
     [] (some 1) rfl (fun s hs => absurd hs (List.not_mem_nil s))⟩

/-! Claim C2 -/

/-- C2: every non-`initialize` call whose presented session id is missing,
unknown, or names a session whose `expires_at` is in the past gets the
distinct "session not found" response (the handler is a total function, so
no crash is possible), and an expired session behaves exactly like a
deleted one. -/
theorem C2_session_guard
    (env : String → ToolArgs → Except String ToolResult)
    (st : EngineState) (req : McpRequest) (hm : req.method.isInit = false) :
    (req.sessionId = none →
      (handleRequest env st req).1 = sessionNotFoundResp) ∧
    (∀ sid : String, req.sessionId = some sid →
      lookupSession st.sessions sid = none →
      (handleRequest env st req).1 = sessionNotFoundResp) ∧
    (∀ (sid : String) (s : Session), req.sessionId = some sid →
      lookupSession st.sessions sid = some s →
      sessionExpired s st.now = true →
      (handleRequest env st req).1 = sessionNotFoundResp ∧
      (handleRequest env st req).1 =
        (handleRequest env
          { st with sessions :=
              st.sessions.filter (fun t => t.session_id != sid) } req).1) := by
  obtain ⟨k, hk⟩ := handleRequest_non_init env st req hm
  refine ⟨?_, ?_, ?_⟩
  · intro h
    rw [hk, withSession_no_header st req k h]
  · intro sid hsid hlook
    rw [hk, withSession_resolve_none st req k sid hsid (by rw [hlook]; rfl)]
  · intro sid s hsid hlook hexp
    have h₁ : (handleRequest env st req).1 = sessionNotFoundResp := by
      rw [hk, withSession_resolve_none st req k sid hsid
        (by rw [hlook]; simp [resolveSession, hexp])]
    refine ⟨h₁, ?_⟩
    obtain ⟨k', hk'⟩ := handleRequest_non_init env
      { st with sessions :=
          st.sessions.filter (fun t => t.session_id != sid) } req hm
    rw [h₁, hk', withSession_resolve_none _ req k' sid hsid
      (by rw [show lookupSession
          (st.sessions.filter (fun t => t.session_id != sid)) sid = none
          from lookupSession_filter_ne st.sessions sid]; rfl)]

/-- Expired session used by the C2 witness: `expires_at = 50` lies in the
past of the engine clock `now = 100`. -/
def expSession : Session := ⟨"sess-exp", 0, 50, "2024-11-05", "c"⟩

/-- Engine state holding only the expired session. -/
def stExp : EngineState := ⟨[expSession], 5, 100⟩

/-- A `tools/list` request presenting the given session id. -/
def reqList (sid : Option String) : McpRequest := ⟨.toolsList, sid, [], some 2⟩

/-- Witness for C2: a missing id, an unknown id, and the expired session
all get the "session not found" response, the latter identically to its
deleted variant. -/
theorem C2_session_guard_witness :
    ((reqList none).method.isInit = false ∧ (reqList none).sessionId = none ∧
      (handleRequest env0 stExp (reqList none)).1 = sessionNotFoundResp) ∧
    ((reqList (some "nope")).sessionId = some "nope" ∧
      lookupSession stExp.sessions "nope" = none ∧
      (handleRequest env0 stExp (reqList (some "nope"))).1 =
        sessionNotFoundResp) ∧
    ((reqList (some "sess-exp")).sessionId = some "sess-exp" ∧
      lookupSession stExp.sessions "sess-exp" = some expSession ∧
      sessionExpired expSession stExp.now = true ∧
      (handleRequest env0 stExp (reqList (some "sess-exp"))).1 =
        sessionNotFoundResp ∧
      (handleRequest env0 stExp (reqList (some "sess-exp"))).1 =
        (handleRequest env0
          { stExp with sessions :=
              stExp.sessions.filter (fun t => t.session_id != "sess-exp") }
          (reqList (some "sess-exp"))).1) :=
  ⟨⟨rfl, rfl, (C2_session_guard env0 stExp (reqList none) rfl).1 rfl⟩,
   ⟨rfl, by decide,
    (C2_session_guard env0 stExp (reqList (some "nope")) rfl).2.1 "nope" rfl
      (by decide)⟩,
   ⟨rfl, by decide, rfl,
    (C2_session_guard env0 stExp (reqList (some "sess-exp")) rfl).2.2
      "sess-exp" expSession rfl (by decide) rfl⟩⟩

/-! Claim C3 -/

/-- C3: a `tools/call` whose handler fails never surfaces as a
protocol-level JSON-RPC error: the engine always receives and returns a
well-formed result envelope; a raised handler exception is folded into
`isError = true` with a readable message, and an authentication/credential
failure from the search collaborator is classified by the search handler
itself as a tool-level `isError = true` result, not thrown. -/
theorem C3_handler_boundary
    (env : String → ToolArgs → Except String ToolResult)
    (st : EngineState) (sidOpt : Option String)
    (hdrs : List (String × String)) (rid : Option Nat) (name : String)
    (args : ToolArgs) (sid : String) (s : Session)
    (hsid : sidOpt = some sid)
    (hfound : lookupSession st.sessions sid = some s)
    (hlive : sessionExpired s st.now = false)
    (hreg : name ∈ toolRegistry) :
    (∃ r : ToolResult,
      (handleRequest env st ⟨.toolsCall name args, sidOpt, hdrs, rid⟩).1.body =
        .toolResult r) ∧
    (∀ msg : String, env name args = .error msg →
      (handleRequest env st ⟨.toolsCall name args, sidOpt, hdrs, rid⟩).1.body =
        .toolResult ⟨["Error executing tool: " ++ msg], true⟩) ∧
    (∀ (search : String → Nat → SearchOutcome)
      (fetch : String → Option String) (ea : Bool)
      (es ls : String → List Char → ℚ) (msg : String),
      search args.query (clampNumResults args.num_results) =
        .authFailure msg →
      googleSearchAndScrape search fetch ea es ls args =
        .ok ⟨["Authentication error from search API: " ++ msg], true⟩) := by
  subst hsid
  have hres : resolveSession (.ok (lookupSession st.sessions sid)) st.now =
      some s := by
    rw [hfound]
    simp [resolveSession, hlive]
  refine ⟨⟨runHandler (env name args), ?_⟩, ?_, ?_⟩
  · simp [handleRequest, withSession, guardSession, hres, hreg]
  · intro msg hmsg
    simp [handleRequest, withSession, guardSession, hres, hreg, runHandler,
      hmsg]
  · intro search fetch ea es ls msg hauth
    simp [googleSearchAndScrape, hauth]

/-- Handler environment that raises on every call. -/
def envBoom : String → ToolArgs → Except String ToolResult :=
  fun _ _ => .error "boom"

/-- Live session used by the C3 witness. -/
def liveSession : Session := ⟨"sess-1", 0, 4000, "2024-11-05", "c"⟩

/-- Engine state holding the live session. -/
def stLive : EngineState := ⟨[liveSession], 1, 100⟩

/-- Arguments of the witness tool call. -/
def args1 : ToolArgs := ⟨"test search", 1, false, false, 500⟩

/-- Search collaborator whose credentials are rejected. -/
def searchAuthFail : String → Nat → SearchOutcome :=
  fun _ _ => .authFailure "invalid API key"

/-- Zero scorer used where a scoring collaborator is required. -/
def zeroScore : String → List Char → ℚ := fun _ _ => 0

/-- Witness for C3: a throwing handler and an auth-failing search
collaborator, both folded into `isError = true` envelopes. -/
theorem C3_handler_boundary_witness :
    (lookupSession stLive.sessions "sess-1" = some liveSession ∧
      sessionExpired liveSession stLive.now = false ∧
      "googleSearchAndScrape" ∈ toolRegistry) ∧
    (∃ r : ToolResult,
      (handleRequest envBoom stLive
        ⟨.toolsCall "googleSearchAndScrape" args1, some "sess-1", [],
          some 3⟩).1.body = .toolResult r) ∧
    (envBoom "googleSearchAndScrape" args1 = .error "boom" ∧
      (handleRequest envBoom stLive
        ⟨.toolsCall "googleSearchAndScrape" args1, some "sess-1", [],
          some 3⟩).1.body =
        .toolResult ⟨["Error executing tool: " ++ "boom"], true⟩) ∧
    (searchAuthFail args1.query (clampNumResults args1.num_results) =
        .authFailure "invalid API key" ∧
      googleSearchAndScrape searchAuthFail simFetch false zeroScore zeroScore
          args1 =
        .ok ⟨["Authentication error from search API: " ++ "invalid API key"],
          true⟩) :=
  ⟨⟨rfl, rfl, by decide⟩,
   (C3_handler_boundary envBoom stLive (some "sess-1") [] (some 3)
     "googleSearchAndScrape" args1 "sess-1" liveSession rfl rfl rfl
     (by decide)).1,
   ⟨rfl,
    (C3_handler_boundary envBoom stLive (some "sess-1") [] (some 3)
      "googleSearchAndScrape" args1 "sess-1" liveSession rfl rfl rfl
      (by decide)).2.1 "boom" rfl⟩,
   ⟨rfl,
    (C3_handler_boundary envBoom stLive (some "sess-1") [] (some 3)
      "googleSearchAndScrape" args1 "sess-1" liveSession rfl rfl rfl
      (by decide)).2.2 searchAuthFail simFetch false zeroScore zeroScore
      "invalid API key" rfl⟩⟩

/-! Claim C5 -/

/-- C5: under `use_rag`, every document text splits into contiguous chunks
of `chunk_size` characters whose concatenation restores the text (only the
final chunk may be shorter, offsets advance by exactly `chunk_size`); the
scored chunks are ranked by `chunkLE` — descending score, ties by
(document rank, offset) ascending — and exactly the top `K` of them are
returned, each still carrying its source url and score, and every returned
chunk ranks no lower than every chunk left out. -/
theorem C5_rag_chunking_and_ranking (cs K : Nat) (hcs : cs ≠ 0)
    (docs : List ScrapedDocument) (f : PlainChunk → ℚ) :
    (∀ t : List Char,
      ((chunkText cs t 0).map Prod.snd).flatten = t ∧
      (∀ p ∈ (chunkText cs t 0).dropLast, p.2.length = cs) ∧
      (∀ p ∈ chunkText cs t 0, 0 < p.2.length ∧ p.2.length ≤ cs) ∧
      List.Chain' (fun a b : Nat × List Char => b.1 = a.1 + cs)
        (chunkText cs t 0)) ∧
    ((rankChunks K (scoreChunks f (allChunks cs docs))).length =
      min K (scoreChunks f (allChunks cs docs)).length ∧
    List.Pairwise (fun a b => chunkLE a b = true)
      (rankChunks K (scoreChunks f (allChunks cs docs))) ∧
    (∀ c ∈ rankChunks K (scoreChunks f (allChunks cs docs)),
      c ∈ scoreChunks f (allChunks cs docs)) ∧
    (∀ a ∈ rankChunks K (scoreChunks f (allChunks cs docs)),
      ∀ b ∈ ((scoreChunks f (allChunks cs docs)).mergeSort chunkLE).drop K,
      chunkLE a b = true)) := by
  have hsorted := List.sorted_mergeSort chunkLE_trans chunkLE_total
    (scoreChunks f (allChunks cs docs))
  refine ⟨?_, ?_, ?_, ?_, ?_⟩
  · intro t
    exact ⟨chunkText_join cs hcs t 0, chunkText_dropLast_length cs hcs t 0,
      chunkText_mem_length cs hcs t 0, chunkText_chain cs t 0⟩
  · rw [rankChunks, List.length_take, List.length_mergeSort]
  · exact List.Pairwise.sublist (List.take_sublist K _) hsorted
  · intro c hc
    exact List.mem_mergeSort.mp ((List.take_sublist K _).mem hc)
  · have hp := hsorted
    rw [← List.take_append_drop K
      ((scoreChunks f (allChunks cs docs)).mergeSort chunkLE)] at hp
    exact (List.pairwise_append.mp hp).2.2

/-- Document set used by the C5 and C6 witnesses: one successfully scraped
nine-character document and one failed fetch. -/
def ragDocs : List ScrapedDocument :=
  [⟨"u1", "abcdefghi", "static", 9⟩, ⟨"u2", "", "failed", 0⟩]

/-- Scorer used by the C5 witness. -/
def ragScore : PlainChunk → ℚ := fun c => (c.offset : ℚ)

/-- Witness for C5 at `chunk_size = 4`, `K = 2` on `ragDocs`. -/
theorem C5_rag_chunking_and_ranking_witness :
    (4 : Nat) ≠ 0 ∧
    ((∀ t : List Char,
      ((chunkText 4 t 0).map Prod.snd).flatten = t ∧
      (∀ p ∈ (chunkText 4 t 0).dropLast, p.2.length = 4) ∧
      (∀ p ∈ chunkText 4 t 0, 0 < p.2.length ∧ p.2.length ≤ 4) ∧
      List.Chain' (fun a b : Nat × List Char => b.1 = a.1 + 4)
        (chunkText 4 t 0)) ∧
    ((rankChunks 2 (scoreChunks ragScore (allChunks 4 ragDocs))).length =
      min 2 (scoreChunks ragScore (allChunks 4 ragDocs)).length ∧
    List.Pairwise (fun a b => chunkLE a b = true)
      (rankChunks 2 (scoreChunks ragScore (allChunks 4 ragDocs))) ∧
    (∀ c ∈ rankChunks 2 (scoreChunks ragScore (allChunks 4 ragDocs)),
      c ∈ scoreChunks ragScore (allChunks 4 ragDocs)) ∧
    (∀ a ∈ rankChunks 2 (scoreChunks ragScore (allChunks 4 ragDocs)),
      ∀ b ∈ ((scoreChunks ragScore (allChunks 4 ragDocs)).mergeSort
        chunkLE).drop 2,
      chunkLE a b = true))) :=
  ⟨by decide, C5_rag_chunking_and_ranking 4 2 (by decide) ragDocs ragScore⟩

/-! Claim C6 -/

/-- C6: the chunking step is deterministic — two runs over the same
document set and `chunk_size` yield identical chunk offsets even when
everything run-dependent (the relevance scorer, hence the query and the
embedding-availability flag) differs, and the offsets a text receives
depend only on the text's length. -/
theorem C6_chunk_offsets_deterministic (cs : Nat)
    (docs : List ScrapedDocument) (f g : PlainChunk → ℚ) :
    ((scoreChunks f (allChunks cs docs)).map RagChunk.offset =
      (scoreChunks g (allChunks cs docs)).map RagChunk.offset) ∧
    (∀ t₁ t₂ : List Char, t₁.length = t₂.length → ∀ off : Nat,
      (chunkText cs t₁ off).map Prod.fst =
        (chunkText cs t₂ off).map Prod.fst) := by
  constructor
  · have hmap : ∀ h : PlainChunk → ℚ,
        (scoreChunks h (allChunks cs docs)).map RagChunk.offset =
          (allChunks cs docs).map PlainChunk.offset := by
      intro h
      rw [scoreChunks, List.map_map]
      rfl
    rw [hmap f, hmap g]
  · intro t₁ t₂ hlen off
    exact chunkText_fst_congr cs t₁ t₂ hlen off

/-- Witness for C6: two different scorers on `ragDocs`, and two
equal-length but different texts, produce identical offsets. -/
theorem C6_chunk_offsets_deterministic_witness :
    ((scoreChunks ragScore (allChunks 4 ragDocs)).map RagChunk.offset =
      (scoreChunks (fun _ => (7 : ℚ)) (allChunks 4 ragDocs)).map
        RagChunk.offset) ∧
    ("abcde".toList.length = "vwxyz".toList.length ∧
      (chunkText 4 "abcde".toList 0).map Prod.fst =
        (chunkText 4 "vwxyz".toList 0).map Prod.fst) :=
  ⟨(C6_chunk_offsets_deterministic 4 ragDocs ragScore (fun _ => (7 : ℚ))).1,
   ⟨rfl,
    (C6_chunk_offsets_deterministic 4 ragDocs ragScore
      (fun _ => (7 : ℚ))).2 "abcde".toList "vwxyz".toList rfl 0⟩⟩

end MCP
